import Mathlib

/-!
Verification development for the tenant-observer operator
(`observer-operator.py`).  The Python code is shallowly embedded:

* `decimal.Decimal` values are embedded as `ℚ` (non-finite special values
  such as `Infinity`/`NaN` fall outside `ℚ` and outside every input
  considered here).  A `Decimal(text)` constructor call — which never rounds
  — is embedded as `pyDecimal : List Char → Option ℚ`; `none` models the
  `decimal.InvalidOperation` exception raised on a malformed numeric body.
* Decimal arithmetic runs under the module's default context: 28
  significant digits, `ROUND_HALF_EVEN`.  Every `+`, `/`, `*` on `Decimal`
  computes the exact result and rounds it to that precision; this is
  modelled by `roundDec` and the operation wrappers `decAdd` / `decDiv` /
  `decMul`.  The context's exponent limits (`Emin`/`Emax` = ∓999999) lie far
  beyond every quantity handled here and are not modelled.
* Arithmetic the source performs on Python floats is embedded as exact `ℚ`
  arithmetic; the place where that distinction is observable — the
  `float(...)` conversions in `gather` — is analysed separately via
  `binary64Representable`.
* The Kubernetes API collaborators (pod lists, service/configmap/secret
  counts, the tenant inventory) are data sources external to the core; their
  successfully fetched results are the inputs of the embedded functions.
-/

namespace TenantObserver

/-- ASCII decimal digits of a numeral, most significant first, folded exactly
as a positional base-10 reading. -/
def digitsToNat (l : List Char) : ℕ :=
  l.foldl (fun a c => 10 * a + (c.toNat - 48)) 0

/-- Python `str.strip()` on the character list: drop leading and trailing
whitespace. -/
def stripWs (l : List Char) : List Char :=
  ((l.dropWhile Char.isWhitespace).reverse.dropWhile Char.isWhitespace).reverse

/-- Optional leading sign of a numeric literal: `true` means negative. -/
def readSign : List Char → Bool × List Char
  | '+' :: r => (false, r)
  | '-' :: r => (true, r)
  | l => (false, l)

/-- Syntactic part of the `decimal.Decimal(text)` constructor on finite
numeric strings: `[sign] (digits [. digits*] | . digits) [(e|E) [sign]
digits]`, with leading/trailing whitespace allowed.  Returns
`(negative, mantissa digits read as ℕ, number of fractional digits,
exponent sign, exponent digits)`, or `none` when the text is not a numeric
string (the constructor then raises `decimal.InvalidOperation`). -/
def pyDecimalParse (cs0 : List Char) : Option (Bool × ℕ × ℕ × Bool × ℕ) :=
  let cs := stripWs cs0
  let sr := readSign cs
  let neg := sr.1
  let cs1 := sr.2
  let ip := cs1.takeWhile Char.isDigit
  let cs2 := cs1.dropWhile Char.isDigit
  let fr : List Char × List Char :=
    match cs2 with
    | '.' :: r => (r.takeWhile Char.isDigit, r.dropWhile Char.isDigit)
    | _ => ([], cs2)
  let fp := fr.1
  let cs3 := fr.2
  if ip.length + fp.length = 0 then none
  else
    match cs3 with
    | [] => some (neg, digitsToNat (ip ++ fp), fp.length, true, 0)
    | c :: r =>
      if c = 'e' ∨ c = 'E' then
        let er := readSign r
        let ed := er.2.takeWhile Char.isDigit
        let rest := er.2.dropWhile Char.isDigit
        if ed.length = 0 ∨ rest ≠ [] then none
        else some (neg, digitsToNat (ip ++ fp), fp.length, !er.1, digitsToNat ed)
      else none

/-- Exact rational value of a parsed decimal literal. -/
def decValue (neg : Bool) (mant scale : ℕ) (epos : Bool) (edig : ℕ) : ℚ :=
  let q : ℚ := (mant : ℚ) / (10 : ℚ) ^ scale
  let q' : ℚ := if epos then q * (10 : ℚ) ^ edig else q / (10 : ℚ) ^ edig
  if neg then -q' else q'

/-- `decimal.Decimal(text)` on finite numeric strings; `none` models the
raised `decimal.InvalidOperation`. -/
def pyDecimal (cs : List Char) : Option ℚ :=
  (pyDecimalParse cs).map (fun a => decValue a.1 a.2.1 a.2.2.1 a.2.2.2.1 a.2.2.2.2)

/-- Round to the nearest integer, ties to the even integer — the
`ROUND_HALF_EVEN` rounding of the decimal module's default context.  (On a
tie the even *integer* has an even last coefficient digit, for negative
values included, so this matches rounding the coefficient to even.) -/
def roundHalfEvenInt (q : ℚ) : ℤ :=
  let f := ⌊q⌋
  if q - (f : ℚ) < 1 / 2 then f
  else if (1 : ℚ) / 2 < q - (f : ℚ) then f + 1
  else if f % 2 = 0 then f else f + 1

/-- `⌊log10 |q|⌋` for `q ≠ 0` — the adjusted exponent of the exact result,
from which the context's rounding position is derived. -/
def floorLog10 (q : ℚ) : ℤ :=
  if 1 ≤ |q| then (Nat.log 10 ⌊|q|⌋.toNat : ℤ)
  else -(Nat.clog 10 ⌈|q|⁻¹⌉.toNat : ℤ)

/-- Rounding of an exact arithmetic result under the decimal module's
default context (`prec = 28`, `ROUND_HALF_EVEN`): the result is rounded to
28 significant digits, i.e. to the nearest multiple of
`10 ^ (⌊log10 |q|⌋ - 27)`, ties to even. -/
def roundDec (q : ℚ) : ℚ :=
  if q = 0 then 0
  else
    let scale : ℤ := floorLog10 q - 27
    ((roundHalfEvenInt (q / (10 : ℚ) ^ scale) : ℤ) : ℚ) * (10 : ℚ) ^ scale

/-- `Decimal + Decimal` under the default context. -/
def decAdd (a b : ℚ) : ℚ := roundDec (a + b)

/-- `Decimal / Decimal` under the default context. -/
def decDiv (a b : ℚ) : ℚ := roundDec (a / b)

/-- `Decimal * int` under the default context. -/
def decMul (a b : ℚ) : ℚ := roundDec (a * b)

/-- `parse_cpu` (source lines 41-47).  An empty string returns `Decimal(0)`;
otherwise the string is stripped, and a trailing `m` makes the body be fed to
`Decimal` — with no `try`/`except` around it — and divided (a context-rounded
division) by 1000; any other ending returns `Decimal(0)`.  `none` models an
uncaught `decimal.InvalidOperation` escaping to the caller. -/
def parse_cpu (cpu_str : String) : Option ℚ :=
  if cpu_str.isEmpty then some 0
  else
    let t := stripWs cpu_str.data
    match t.getLast? with
    | some 'm' => (pyDecimal t.dropLast).map (fun d => decDiv d 1000)
    | _ => some 0

/-- Binary-unit suffix recognition of `parse_memory`: the multiplier and the
numeric body when the string ends in `Ki`/`Mi`/`Gi`/`Ti`. -/
def memSuffix (t : List Char) : Option (ℕ × List Char) :=
  match t.reverse with
  | 'i' :: 'K' :: rest => some (1024, rest.reverse)
  | 'i' :: 'M' :: rest => some (1024 ^ 2, rest.reverse)
  | 'i' :: 'G' :: rest => some (1024 ^ 3, rest.reverse)
  | 'i' :: 'T' :: rest => some (1024 ^ 4, rest.reverse)
  | _ => none

/-- `parse_memory` (source lines 50-61).  Empty string and unrecognized
suffixes yield 0; a recognized binary suffix multiplies the `Decimal` body
(a context-rounded multiplication), and the surrounding `try`/`except` turns
a malformed body into 0. -/
def parse_memory (mem_str : String) : ℚ :=
  if mem_str.isEmpty then 0
  else
    match memSuffix (stripWs mem_str.data) with
    | some p =>
      match pyDecimal p.2 with
      | some d => decMul d (p.1 : ℚ)
      | none => 0
    | none => 0

/-- The per-namespace / per-tenant usage dictionary (the `usage` and `total`
dicts of `get_namespace_usage` and `gather`): four exact decimal resource
quantities, pod counts by phase, and object counts. -/
@[ext] structure Usage where
  cpu_req : ℚ := 0
  cpu_lim : ℚ := 0
  mem_req : ℚ := 0
  mem_lim : ℚ := 0
  pods : ℕ := 0
  pods_run : ℕ := 0
  pods_wait : ℕ := 0
  pods_fail : ℕ := 0
  svc : ℕ := 0
  cm : ℕ := 0
  secret : ℕ := 0
deriving DecidableEq, Repr

/-- The all-zero dictionary both functions start from. -/
def initUsage : Usage := {}

/-- The body of `for k in total: total[k] += u[k]` (source lines 249-250):
key-wise addition of two usage dictionaries — context-rounded `Decimal`
addition on the quantity keys, exact integer addition on the counts. -/
def addUsage (a b : Usage) : Usage where
  cpu_req := decAdd a.cpu_req b.cpu_req
  cpu_lim := decAdd a.cpu_lim b.cpu_lim
  mem_req := decAdd a.mem_req b.mem_req
  mem_lim := decAdd a.mem_lim b.mem_lim
  pods := a.pods + b.pods
  pods_run := a.pods_run + b.pods_run
  pods_wait := a.pods_wait + b.pods_wait
  pods_fail := a.pods_fail + b.pods_fail
  svc := a.svc + b.svc
  cm := a.cm + b.cm
  secret := a.secret + b.secret

/-- The `requests`/`limits` dictionary of a container's resources; only the
`cpu` and `memory` keys are read by the source (`req.get('cpu', '0')`,
`req.get('memory', '0')`). -/
structure ResourceDict where
  cpu : Option String := none
  memory : Option String := none

/-- A container's `resources` object; `requests`/`limits` may each be absent
(`r.requests or { }`). -/
structure Resources where
  requests : Option ResourceDict := none
  limits : Option ResourceDict := none

/-- A pod as read by `get_namespace_usage`: its `status.phase` and, per
container, the optional `resources` object (`c.resources`, skipped when
falsy). -/
structure Pod where
  phase : String
  containers : List (Option Resources) := []

/-- One container's contribution (source lines 213-221).  The `+=` updates
are context-rounded `Decimal` additions.  The two `parse_cpu` calls can
raise (`pyDecimal` returning `none`); the updates before the raising call
have already been applied to the dictionary, so the error value carries the
partially updated state. -/
def addContainer (u : Usage) (res : Option Resources) : Except Usage Usage :=
  match res with
  | none => Except.ok u
  | some r =>
    let req := r.requests.getD {}
    let lim := r.limits.getD {}
    match parse_cpu (req.cpu.getD "0") with
    | none => Except.error u
    | some cr =>
      let u1 : Usage := { u with cpu_req := decAdd u.cpu_req cr }
      match parse_cpu (lim.cpu.getD "0") with
      | none => Except.error u1
      | some cl =>
        let u2 : Usage := { u1 with cpu_lim := decAdd u1.cpu_lim cl }
        let u3 : Usage :=
          { u2 with mem_req := decAdd u2.mem_req (parse_memory (req.memory.getD "0")) }
        Except.ok { u3 with mem_lim := decAdd u3.mem_lim (parse_memory (lim.memory.getD "0")) }

/-- Left-to-right fold of a pod's containers; an exception aborts the loop
with the partial state. -/
def foldContainers : Usage → List (Option Resources) → Except Usage Usage
  | u, [] => Except.ok u
  | u, c :: cs =>
    match addContainer u c with
    | Except.ok u' => foldContainers u' cs
    | Except.error u' => Except.error u'

/-- One pod's contribution (source lines 203-221): phase classification,
then the total pod counter, then the container loop. -/
def addPod (u : Usage) (p : Pod) : Except Usage Usage :=
  let u1 : Usage :=
    if p.phase = "Running" then { u with pods_run := u.pods_run + 1 }
    else if p.phase = "Pending" then { u with pods_wait := u.pods_wait + 1 }
    else if p.phase = "Failed" then { u with pods_fail := u.pods_fail + 1 }
    else u
  foldContainers { u1 with pods := u1.pods + 1 } p.containers

/-- The pod loop under `try: ... except: pass` (source lines 201-223): an
exception stops the loop and the partially accumulated dictionary is kept. -/
def foldPods : Usage → List Pod → Usage
  | u, [] => u
  | u, p :: ps =>
    match addPod u p with
    | Except.ok u' => foldPods u' ps
    | Except.error u' => u'

/-- The data `get_namespace_usage` reads for one namespace, as returned by
the cluster API collaborators: its name, its pods, and the lengths of its
service / config-map / secret listings (source lines 225-228; a failing
listing is the success case with the remaining counts zero and is not
modelled separately). -/
structure NsData where
  name : String
  pods : List Pod := []
  svc : ℕ := 0
  cm : ℕ := 0
  secret : ℕ := 0

/-- `get_namespace_usage` (source lines 194-232). -/
def get_namespace_usage (ns : NsData) : Usage :=
  let u := foldPods initUsage ns.pods
  { u with svc := ns.svc, cm := ns.cm, secret := ns.secret }

/-- A tenant as seen by `gather`: its name, the namespaces the namespace
source resolves for it, and the declared owners. -/
structure TenantInput where
  name : String
  namespaces : List NsData := []
  owners : List String := []

/-- The accumulation loop of `gather` (source lines 240-250): key-wise
addition of every namespace usage into `total`. -/
def gatherTotal (t : TenantInput) : Usage :=
  t.namespaces.foldl (fun acc ns => addUsage acc (get_namespace_usage ns)) initUsage

/-- `cpu_pct` (source lines 252-254): the division is guarded by
`total['cpu_lim'] > 0`. -/
def cpu_pct (total : Usage) : ℚ :=
  if total.cpu_lim > 0 then total.cpu_req / total.cpu_lim * 100 else 0

/-- `mem_pct` (source lines 256-258). -/
def mem_pct (total : Usage) : ℚ :=
  if total.mem_lim > 0 then total.mem_req / total.mem_lim * 100 else 0

/-- The health-score computation of `gather` (source lines 260-266), with the
float literal `0.3` read as the decimal it denotes. -/
def health_score (cpuPct memPct : ℚ) (wait fail : ℕ) : ℚ :=
  let h1 : ℚ := if cpuPct > 0 then 100 - min cpuPct 100 * (3 / 10) else 100
  let h2 : ℚ := if memPct > 0 then h1 - min memPct 100 * (3 / 10) else h1
  let h3 : ℚ := h2 - ((wait : ℚ) + (fail : ℚ)) * 10
  max 0 (min 100 h3)

/-- The status bucketing of `gather` (source line 268). -/
def health_status (score : ℚ) : String :=
  if score ≥ 90 then "healthy" else if score ≥ 70 then "warning" else "critical"

/-- The dictionary `gather` returns (source lines 270-290).  The source
applies `float(...)` to the four quantity totals and to the two percentages
at this point; the embedding keeps the exact rational value — the effect of
that conversion is analysed through `binary64Representable` below. -/
structure TenantData where
  name : String
  namespaces : List String
  namespace_count : ℕ
  cpu_req : ℚ
  cpu_lim : ℚ
  mem_req : ℚ
  mem_lim : ℚ
  cpu_pct : ℚ
  mem_pct : ℚ
  pods : ℕ
  pods_run : ℕ
  pods_wait : ℕ
  pods_fail : ℕ
  svc : ℕ
  cm : ℕ
  secret : ℕ
  health_score : ℚ
  health_status : String
  owners : List String

/-- `gather` (source lines 235-290). -/
def gather (t : TenantInput) : TenantData :=
  let total := gatherTotal t
  let cp := cpu_pct total
  let mp := mem_pct total
  let hs := health_score cp mp total.pods_wait total.pods_fail
  { name := t.name
    namespaces := t.namespaces.map (fun ns => ns.name)
    namespace_count := t.namespaces.length
    cpu_req := total.cpu_req
    cpu_lim := total.cpu_lim
    mem_req := total.mem_req
    mem_lim := total.mem_lim
    cpu_pct := cp
    mem_pct := mp
    pods := total.pods
    pods_run := total.pods_run
    pods_wait := total.pods_wait
    pods_fail := total.pods_fail
    svc := total.svc
    cm := total.cm
    secret := total.secret
    health_score := hs
    health_status := health_status hs
    owners := t.owners }

/-- The cluster-average health of `update_metrics` (source line 327):
`sum(health_scores) / len(health_scores) if health_scores else 100`. -/
def avg_health (scores : List ℚ) : ℚ :=
  if scores.isEmpty then 100 else scores.sum / (scores.length : ℚ)

/-- The cluster-status bucketing of `update_metrics` (source line 328),
transcribed literally from its own conditional chain. -/
def cluster_status (ts : List TenantData) : String :=
  let avg := avg_health (ts.map (fun t => t.health_score))
  if avg ≥ 90 then "healthy" else if avg ≥ 70 then "warning" else "critical"

/-- A binary64 floating-point number carries a 53-bit significand: every
finite value of Python's `float` type is `m * 2 ^ e` with `|m| < 2 ^ 53`. -/
def binary64Representable (q : ℚ) : Prop :=
  ∃ (m e : ℤ), m.natAbs < 2 ^ 53 ∧ q = (m : ℚ) * (2 : ℚ) ^ e

/-- `v.replace('.', '_').replace('-', '_')` of `PrometheusMetrics._labels`
(source line 89): the two sequential single-character replacements amount to
one character map. -/
def sanitizeLabel (s : String) : String :=
  String.mk (s.data.map (fun c => if c = '.' ∨ c = '-' then '_' else c))

/-- `name.replace('-', '_')` of `PrometheusMetrics.set` (source line 92). -/
def sanitizeMetricName (s : String) : String :=
  String.mk (s.data.map (fun c => if c = '-' then '_' else c))

/-- Python's ascending order on `(key, value)` string pairs, as used by
`sorted` in `PrometheusMetrics._labels`: lexicographic on the pair. -/
def pairLe (a b : String × String) : Prop :=
  a.1 < b.1 ∨ (a.1 = b.1 ∧ a.2 ≤ b.2)

instance : DecidableRel pairLe := fun a b => by
  unfold pairLe; infer_instance

/-- `PrometheusMetrics._labels` (source lines 88-89): sanitize each label
value, then sort the `(key, value)` pairs. -/
def labelsOf (d : List (String × String)) : List (String × String) :=
  List.insertionSort pairLe (d.map (fun kv => (kv.1, sanitizeLabel kv.2)))

/-- The gauge table `self.gauges`: a Python dict keyed by
`(metric name, label tuple)` in insertion order. -/
def Gauges : Type := List ((String × List (String × String)) × ℚ)

/-- `PrometheusMetrics.set` (source lines 91-93): dict assignment — an
existing key keeps its position and gets the new value, a new key is
appended. -/
def setGauge (g : Gauges) (name : String) (labels : List (String × String)) (value : ℚ) :
    Gauges :=
  let key := (sanitizeMetricName name, labelsOf labels)
  let l : List ((String × List (String × String)) × ℚ) := g
  if l.any (fun e => e.1 = key) then l.map (fun e => if e.1 = key then (key, value) else e)
  else l ++ [(key, value)]

/-- The `{k="v",...}` label block of one exposition line (source line 148);
empty label sets render as no block at all (source lines 146-148). -/
def renderLabelSet (labels : List (String × String)) : String :=
  if labels.isEmpty then ""
  else "\x7b" ++ String.intercalate "," (labels.map (fun kv => kv.1 ++ "=\"" ++ kv.2 ++ "\"")) ++ "\x7d"

/-- `PrometheusMetrics.generate` (source lines 143-151): the fixed header
lines, one line per gauge in table order, the constant build-info line, all
joined with newlines.  The decimal rendering of the float gauge value is
elided: the embedding renders the exact value with `toString`, a function of
the same value. -/
def generate (g : Gauges) : String :=
  let lines : List String :=
    ["# HELP tenant_observer_namespace_count Number of namespaces",
     "# TYPE tenant_observer_namespace_count gauge"]
    ++ (let l : List ((String × List (String × String)) × ℚ) := g
        l.map (fun e => e.1.1 ++ renderLabelSet e.1.2 ++ " " ++ toString e.2))
    ++ ["tenant_observer_build_info\x7boperator=\"tenant-observer\"\x7d 1"]
  String.intercalate "\n" lines

/-- Python `int(x)` on a (here: rational-valued) number: truncation toward
zero. -/
def intTrunc (q : ℚ) : ℤ :=
  if 0 ≤ q then ⌊q⌋ else ⌈q⌉

/-- Python `round(x, 2)` read at exact-value level: banker's rounding to two
decimal places (ties to the even hundredth). -/
def round2 (q : ℚ) : ℚ :=
  let s := q * 100
  let f := ⌊s⌋
  let n : ℤ :=
    if s - f < 1 / 2 then f
    else if (1 : ℚ) / 2 < s - f then f + 1
    else if f % 2 = 0 then f else f + 1
  (n : ℚ) / 100

/-- The numeric and structural content of the `ti_data` body built by
`sync_tenant_infos` (source lines 371-424).  Fields holding a
formatted-string rendering of a number (`format_cpu` / `format_memory`
output and the `percentage_display` strings) are deterministic renderings of
the numeric fields kept here and are elided from the embedding; the
always-constant fields (`status: ok`, the zero storage/ingress blocks,
`apiVersion`, `kind`) are kept where they carry record content. -/
structure TenantInfoRec where
  meta_name : String
  tenant_label : String
  spec_name : String
  namespaces : List String
  namespace_count : ℕ
  cpu_requested_raw_milli : ℤ
  cpu_requested_percentage : ℚ
  cpu_limit_raw_milli : ℤ
  cpu_usage_raw_milli : ℤ
  cpu_usage_percentage : ℚ
  cpu_utilization_efficiency : ℚ
  mem_requested_raw_bytes : ℤ
  mem_requested_percentage : ℚ
  mem_limit_raw_bytes : ℤ
  mem_usage_raw_bytes : ℤ
  mem_usage_percentage : ℚ
  mem_utilization_efficiency : ℚ
  pods_requested : ℕ
  pods_running : ℕ
  pods_pending : ℕ
  pods_failed : ℕ
  pods_percentage : ℚ
  services_count : ℕ
  configmaps_count : ℕ
  secrets_count : ℕ
  ingresses_count : ℕ
  health_score : ℚ
  health_status : String
  owners : List String
  status_phase : String
  status_state : String

/-- The `ti_data` body for one tenant (source lines 371-424).  Note
`raw_milli` receives `int(t['cpu_req'])` — the truncated number of whole
cores, not of milli-cores. -/
def mkTenantInfo (t : TenantData) : TenantInfoRec where
  meta_name := t.name ++ "-info"
  tenant_label := t.name
  spec_name := t.name
  namespaces := t.namespaces
  namespace_count := t.namespace_count
  cpu_requested_raw_milli := intTrunc t.cpu_req
  cpu_requested_percentage := round2 t.cpu_pct
  cpu_limit_raw_milli := intTrunc t.cpu_lim
  cpu_usage_raw_milli := intTrunc t.cpu_req
  cpu_usage_percentage := round2 t.cpu_pct
  cpu_utilization_efficiency := round2 t.cpu_pct
  mem_requested_raw_bytes := intTrunc t.mem_req
  mem_requested_percentage := round2 t.mem_pct
  mem_limit_raw_bytes := intTrunc t.mem_lim
  mem_usage_raw_bytes := intTrunc t.mem_req
  mem_usage_percentage := round2 t.mem_pct
  mem_utilization_efficiency := round2 t.mem_pct
  pods_requested := t.pods
  pods_running := t.pods_run
  pods_pending := t.pods_wait
  pods_failed := t.pods_fail
  pods_percentage := (t.pods : ℚ) / (max t.pods 1 : ℕ) * 100
  services_count := t.svc
  configmaps_count := t.cm
  secrets_count := t.secret
  ingresses_count := 0
  health_score := t.health_score
  health_status := t.health_status
  owners := t.owners
  status_phase := "Active"
  status_state := t.health_status

/-- The derived-record store: the `tenantinfos` custom objects in the
operator namespace, keyed by object name. -/
def Store : Type := String → Option TenantInfoRec

/-- One get-then-patch-or-create round of `sync_tenant_infos` (source lines
426-457).  The `get` succeeds exactly when the key is present; `patch` with
the full body replaces the tracked content in place, `create` inserts it —
both write the same `ti_data`, so the round is a keyed upsert. -/
def upsert (s : Store) (key : String) (v : TenantInfoRec) : Store :=
  fun n => if n = key then some v else s n

/-- `sync_tenant_infos` (source lines 363-457): upsert one record named
`<tenant>-info` per tenant entry. -/
def sync_tenant_infos (ts : List TenantData) (s : Store) : Store :=
  ts.foldl (fun st t => upsert st (t.name ++ "-info") (mkTenantInfo t)) s

/-! ### The decimal context: exactness envelope and concrete roundings -/

lemma roundHalfEvenInt_intCast (n : ℤ) : roundHalfEvenInt (n : ℚ) = n := by
  unfold roundHalfEvenInt
  norm_num [Int.floor_intCast]

lemma ten_zpow_pos (s : ℤ) : (0 : ℚ) < (10 : ℚ) ^ s := zpow_pos (by norm_num) s

lemma ten_zpow_28 : (10 : ℚ) ^ (28 : ℤ) = (10 : ℚ) ^ (28 : ℕ) := by
  rw [show (28 : ℤ) = ((28 : ℕ) : ℤ) by norm_num, zpow_natCast]

lemma floorLog10_abs (q : ℚ) : floorLog10 |q| = floorLog10 q := by
  unfold floorLog10
  rw [abs_abs]

/-- The adjusted exponent of `m * 10 ^ s` (`0 < m`) is `log10 m + s`. -/
lemma floorLog10_nat_mul (m : ℕ) (hm : 0 < m) (s : ℤ) :
    floorLog10 ((m : ℚ) * (10 : ℚ) ^ s) = (Nat.log 10 m : ℤ) + s := by
  have hqpos : (0 : ℚ) < (m : ℚ) * (10 : ℚ) ^ s :=
    mul_pos (by exact_mod_cast hm) (ten_zpow_pos s)
  set L := Nat.log 10 m with hLdef
  set q : ℚ := (m : ℚ) * (10 : ℚ) ^ s with hqdef
  have hzadd : ∀ a b : ℤ, (10 : ℚ) ^ (a + b) = (10 : ℚ) ^ a * (10 : ℚ) ^ b :=
    fun a b => zpow_add₀ (by norm_num) a b
  have hlow : (10 : ℚ) ^ ((L : ℤ) + s) ≤ q := by
    have h1 : ((10 ^ L : ℕ) : ℚ) ≤ (m : ℚ) := by
      exact_mod_cast Nat.pow_log_le_self 10 hm.ne'
    calc (10 : ℚ) ^ ((L : ℤ) + s) = (10 : ℚ) ^ (L : ℤ) * (10 : ℚ) ^ s := hzadd _ _
      _ = ((10 ^ L : ℕ) : ℚ) * (10 : ℚ) ^ s := by rw [zpow_natCast]; push_cast; ring
      _ ≤ (m : ℚ) * (10 : ℚ) ^ s := mul_le_mul_of_nonneg_right h1 (ten_zpow_pos s).le
  have hhigh : q < (10 : ℚ) ^ (((L : ℤ) + 1) + s) := by
    have h1 : (m : ℚ) < ((10 ^ (L + 1) : ℕ) : ℚ) := by
      exact_mod_cast Nat.lt_pow_succ_log_self (by norm_num) m
    have h2 : (10 : ℚ) ^ ((L : ℤ) + 1) = ((10 ^ (L + 1) : ℕ) : ℚ) := by
      have h3 : (L : ℤ) + 1 = ((L + 1 : ℕ) : ℤ) := by push_cast; ring
      rw [h3, zpow_natCast]; push_cast; ring
    calc q = (m : ℚ) * (10 : ℚ) ^ s := hqdef
      _ < ((10 ^ (L + 1) : ℕ) : ℚ) * (10 : ℚ) ^ s := mul_lt_mul_of_pos_right h1 (ten_zpow_pos s)
      _ = (10 : ℚ) ^ ((L : ℤ) + 1) * (10 : ℚ) ^ s := by rw [h2]
      _ = (10 : ℚ) ^ (((L : ℤ) + 1) + s) := (hzadd _ _).symm
  unfold floorLog10
  simp only [abs_of_pos hqpos]
  by_cases h1q : 1 ≤ q
  · rw [if_pos h1q]
    have hEnn : 0 ≤ (L : ℤ) + s := by
      by_contra hneg
      push_neg at hneg
      have hle : ((L : ℤ) + 1) + s ≤ 0 := by omega
      have : q < 1 := lt_of_lt_of_le hhigh (zpow_le_one_of_nonpos₀ (by norm_num) hle)
      linarith
    obtain ⟨E, hE⟩ : ∃ E : ℕ, (L : ℤ) + s = (E : ℤ) :=
      ⟨((L : ℤ) + s).toNat, (Int.toNat_of_nonneg hEnn).symm⟩
    have hfnn : 0 ≤ ⌊q⌋ := Int.floor_nonneg.mpr hqpos.le
    have h10E : (10 : ℤ) ^ E ≤ ⌊q⌋ := by
      rw [Int.le_floor]
      have hc : (((10 : ℤ) ^ E : ℤ) : ℚ) = (10 : ℚ) ^ (E : ℤ) := by
        push_cast [zpow_natCast]; ring
      rw [hc, ← hE]
      exact hlow
    have hfl : ⌊q⌋ < (10 : ℤ) ^ (E + 1) := by
      rw [Int.floor_lt]
      have hc : (((10 : ℤ) ^ (E + 1) : ℤ) : ℚ) = (10 : ℚ) ^ ((E : ℤ) + 1) := by
        rw [show (E : ℤ) + 1 = ((E + 1 : ℕ) : ℤ) by push_cast; ring, zpow_natCast]
        push_cast
        ring
      rw [hc]
      have he2 : (E : ℤ) + 1 = ((L : ℤ) + 1) + s := by omega
      rw [he2]
      exact hhigh
    have hnat : Nat.log 10 ⌊q⌋.toNat = E := by
      apply Nat.log_eq_of_pow_le_of_lt_pow
      · have h := h10E
        rw [← Int.toNat_of_nonneg hfnn] at h
        exact_mod_cast h
      · have h := hfl
        rw [← Int.toNat_of_nonneg hfnn] at h
        exact_mod_cast h
    rw [hnat, hE]
  · rw [if_neg h1q]
    push_neg at h1q
    have hneg : (L : ℤ) + s < 0 := by
      by_contra hge
      push_neg at hge
      have : (1 : ℚ) ≤ q := le_trans (one_le_zpow₀ (by norm_num) hge) hlow
      linarith
    obtain ⟨K, hK⟩ : ∃ K : ℕ, (L : ℤ) + s = -(K : ℤ) := by
      refine ⟨(-(L : ℤ) - s).toNat, ?_⟩
      have h0 : 0 ≤ -(L : ℤ) - s := by omega
      rw [Int.toNat_of_nonneg h0]; ring
    have hK1 : 1 ≤ K := by
      have : 0 < (K : ℤ) := by omega
      exact_mod_cast this
    have hup : q⁻¹ ≤ (10 : ℚ) ^ (K : ℤ) := by
      have h1 : (10 : ℚ) ^ (-(K : ℤ)) ≤ q := by rw [← hK]; exact hlow
      have h2 := inv_anti₀ (ten_zpow_pos (-(K : ℤ))) h1
      rwa [← zpow_neg, neg_neg] at h2
    have hdn : (10 : ℚ) ^ ((K : ℤ) - 1) < q⁻¹ := by
      have h1 : q < (10 : ℚ) ^ (1 - (K : ℤ)) := by
        have he : ((L : ℤ) + 1) + s = 1 - (K : ℤ) := by omega
        rw [← he]; exact hhigh
      have h2 := one_div_lt_one_div_of_lt hqpos h1
      rw [one_div, one_div, ← zpow_neg] at h2
      have he2 : -(1 - (K : ℤ)) = (K : ℤ) - 1 := by ring
      rwa [he2] at h2
    have hceil_le : ⌈q⁻¹⌉ ≤ (10 : ℤ) ^ K := by
      rw [Int.ceil_le]
      have hc : (((10 : ℤ) ^ K : ℤ) : ℚ) = (10 : ℚ) ^ (K : ℤ) := by
        push_cast [zpow_natCast]; ring
      rw [hc]; exact hup
    have hceil_gt : (10 : ℤ) ^ (K - 1) < ⌈q⁻¹⌉ := by
      have hcl := Int.le_ceil q⁻¹
      have h1 : (((10 : ℤ) ^ (K - 1) : ℤ) : ℚ) < (⌈q⁻¹⌉ : ℚ) := by
        refine lt_of_lt_of_le ?_ hcl
        have hc : (((10 : ℤ) ^ (K - 1) : ℤ) : ℚ) = (10 : ℚ) ^ (((K - 1 : ℕ)) : ℤ) := by
          push_cast [zpow_natCast]; ring
        rw [hc]
        have he : (((K - 1 : ℕ)) : ℤ) = (K : ℤ) - 1 := by omega
        rw [he]; exact hdn
      exact_mod_cast h1
    have hcnn : 0 ≤ ⌈q⁻¹⌉ := le_trans (by positivity) hceil_gt.le
    have hK_le : Nat.clog 10 ⌈q⁻¹⌉.toNat ≤ K := by
      apply (Nat.le_pow_iff_clog_le (by norm_num)).mp
      have h := hceil_le
      rw [← Int.toNat_of_nonneg hcnn] at h
      exact_mod_cast h
    have hK_ge : K ≤ Nat.clog 10 ⌈q⁻¹⌉.toNat := by
      have hlt : 10 ^ (K - 1) < ⌈q⁻¹⌉.toNat := by
        have h := hceil_gt
        rw [← Int.toNat_of_nonneg hcnn] at h
        exact_mod_cast h
      have h := (Nat.pow_lt_iff_lt_clog (by norm_num)).mp hlt
      omega
    have hclog : Nat.clog 10 ⌈q⁻¹⌉.toNat = K := le_antisymm hK_le hK_ge
    rw [hclog, hK]

/-- A value of the form `m * 10 ^ s` whose coefficient fits in 28 digits is
unchanged by the context rounding. -/
lemma roundDec_fits (m s : ℤ) (hm0 : m ≠ 0) (hm : m.natAbs < 10 ^ 28) :
    roundDec ((m : ℚ) * (10 : ℚ) ^ s) = (m : ℚ) * (10 : ℚ) ^ s := by
  set L := Nat.log 10 m.natAbs with hLdef
  have hL27 : L ≤ 27 := by
    have h := Nat.log_lt_of_lt_pow (Int.natAbs_ne_zero.mpr hm0) hm
    omega
  have habs : |(m : ℚ) * (10 : ℚ) ^ s| = ((m.natAbs : ℕ) : ℚ) * (10 : ℚ) ^ s := by
    rw [abs_mul, abs_of_pos (ten_zpow_pos s)]
    congr 1
    exact_mod_cast (@Nat.cast_natAbs ℚ _ m).symm
  have hflog : floorLog10 ((m : ℚ) * (10 : ℚ) ^ s) = (L : ℤ) + s := by
    rw [← floorLog10_abs, habs, floorLog10_nat_mul m.natAbs (Int.natAbs_pos.mpr hm0) s]
  have hq0 : (m : ℚ) * (10 : ℚ) ^ s ≠ 0 := by
    intro h0
    rcases mul_eq_zero.mp h0 with h | h
    · exact hm0 (by exact_mod_cast h)
    · exact (ten_zpow_pos s).ne' h
  unfold roundDec
  rw [if_neg hq0]
  simp only [hflog]
  have hint : (m : ℚ) * (10 : ℚ) ^ s / (10 : ℚ) ^ ((L : ℤ) + s - 27)
      = ((m * 10 ^ (27 - L) : ℤ) : ℚ) := by
    push_cast
    rw [div_eq_iff (ten_zpow_pos ((L : ℤ) + s - 27)).ne', mul_assoc]
    congr 1
    rw [← zpow_natCast (10 : ℚ) (27 - L), ← zpow_add₀ (by norm_num : (10 : ℚ) ≠ 0)]
    congr 1
    omega
  rw [hint, roundHalfEvenInt_intCast, ← hint,
    div_mul_cancel₀ _ (ten_zpow_pos ((L : ℤ) + s - 27)).ne']

/-- `Decimal` addition is exact whenever the exact sum fits in the default
context's 28 significant digits. -/
lemma decAdd_fits (a b : ℚ) (m s : ℤ) (h : a + b = (m : ℚ) * (10 : ℚ) ^ s)
    (hm : m.natAbs < 10 ^ 28) : decAdd a b = a + b := by
  unfold decAdd
  rcases eq_or_ne m 0 with rfl | hm0
  · rw [h]
    norm_num [roundDec]
  · rw [h, roundDec_fits m s hm0 hm]

lemma roundDec_eq_of_eq (q : ℚ) (m s : ℤ) (h : q = (m : ℚ) * (10 : ℚ) ^ s)
    (hm0 : m ≠ 0) (hm : m.natAbs < 10 ^ 28) : roundDec q = q := by
  rw [h, roundDec_fits m s hm0 hm]

lemma zpow_zero_ten : (10 : ℚ) ^ (0 : ℤ) = 1 := zpow_zero 10

lemma decAdd_zero_zero : decAdd 0 0 = 0 := by
  unfold decAdd roundDec
  norm_num

lemma decAdd_zero_half : decAdd 0 (1 / 2 : ℚ) = 1 / 2 := by
  rw [decAdd_fits 0 (1 / 2) 5 (-1) (by rw [zpow_neg, zpow_one]; norm_num) (by norm_num)]
  norm_num

lemma decAdd_zero_one : decAdd 0 (1 : ℚ) = 1 := by
  rw [decAdd_fits 0 1 1 0 (by rw [zpow_zero_ten]; norm_num) (by norm_num)]
  norm_num

lemma decAdd_zero_gi1 : decAdd 0 (1073741824 : ℚ) = 1073741824 := by
  rw [decAdd_fits 0 1073741824 1073741824 0 (by rw [zpow_zero_ten]; norm_num) (by norm_num)]
  norm_num

lemma decAdd_zero_gi2 : decAdd 0 (2147483648 : ℚ) = 2147483648 := by
  rw [decAdd_fits 0 2147483648 2147483648 0 (by rw [zpow_zero_ten]; norm_num) (by norm_num)]
  norm_num

lemma decAdd_zero_big53 : decAdd 0 ((2 : ℚ) ^ 53 + 1) = 2 ^ 53 + 1 := by
  rw [decAdd_fits 0 (2 ^ 53 + 1) 9007199254740993 0 (by rw [zpow_zero_ten]; norm_num)
    (by norm_num)]
  norm_num

lemma decAdd_zero_pow28 : decAdd 0 ((10 : ℚ) ^ 28) = (10 : ℚ) ^ 28 := by
  rw [decAdd_fits 0 ((10 : ℚ) ^ 28) 1 28 (by rw [ten_zpow_28]; norm_num) (by norm_num)]
  norm_num

lemma decAdd_zero_five : decAdd 0 (5 : ℚ) = 5 := by
  rw [decAdd_fits 0 5 5 0 (by rw [zpow_zero_ten]; norm_num) (by norm_num)]
  norm_num

lemma decAdd_five_five : decAdd (5 : ℚ) 5 = 10 := by
  rw [decAdd_fits 5 5 1 1 (by rw [zpow_one]; norm_num) (by norm_num)]
  norm_num

lemma decAdd_ten_pow28 : decAdd (10 : ℚ) ((10 : ℚ) ^ 28) = (10 : ℚ) ^ 28 + 10 := by
  rw [decAdd_fits 10 ((10 : ℚ) ^ 28) (10 ^ 27 + 1) 1 (by rw [zpow_one]; push_cast; ring)
    (by norm_num)]
  ring

/-- The tight case: the exact sum `10^28 + 5` needs 29 significant digits;
the context rounds the half-way coefficient to even, losing the 5. -/
lemma decAdd_pow28_five : decAdd ((10 : ℚ) ^ 28) 5 = (10 : ℚ) ^ 28 := by
  unfold decAdd roundDec
  have hfl : floorLog10 ((10 : ℚ) ^ 28 + 5) = 28 := by
    have h : (10 : ℚ) ^ 28 + 5 = ((10 ^ 28 + 5 : ℕ) : ℚ) * (10 : ℚ) ^ (0 : ℤ) := by
      rw [zpow_zero_ten]; push_cast; ring
    rw [h, floorLog10_nat_mul _ (by norm_num) 0]
    have hlog : Nat.log 10 (10 ^ 28 + 5) = 28 :=
      Nat.log_eq_of_pow_le_of_lt_pow (by norm_num) (by norm_num)
    rw [hlog]
    norm_num
  rw [if_neg (by positivity)]
  simp only [hfl]
  have hdiv : ((10 : ℚ) ^ 28 + 5) / (10 : ℚ) ^ ((28 : ℤ) - 27) = (10 : ℚ) ^ 27 + 1 / 2 := by
    rw [show ((28 : ℤ) - 27) = (1 : ℤ) by norm_num, zpow_one]
    rw [div_eq_iff (by norm_num : (10 : ℚ) ≠ 0)]
    ring
  rw [hdiv]
  have hcast : (((10 : ℤ) ^ 27 : ℤ) : ℚ) = (10 : ℚ) ^ 27 := by push_cast; ring
  have hrh : roundHalfEvenInt ((10 : ℚ) ^ 27 + 1 / 2) = (10 : ℤ) ^ 27 := by
    unfold roundHalfEvenInt
    have hfloor : ⌊(10 : ℚ) ^ 27 + 1 / 2⌋ = (10 : ℤ) ^ 27 := by
      apply Int.floor_eq_iff.mpr
      constructor
      · rw [hcast]; norm_num
      · rw [hcast]; norm_num
    simp only [hfloor, hcast]
    rw [show (10 : ℚ) ^ 27 + 1 / 2 - (10 : ℚ) ^ 27 = 1 / 2 by ring]
    norm_num
  rw [hrh]
  rw [show ((28 : ℤ) - 27) = (1 : ℤ) by norm_num, zpow_one, hcast]
  ring

/-! ### Shared evaluation lemmas -/

lemma decDiv_500_1000 : decDiv (500 : ℚ) 1000 = 1 / 2 := by
  unfold decDiv
  rw [show (500 : ℚ) / 1000 = 1 / 2 by norm_num,
    roundDec_eq_of_eq (1 / 2) 5 (-1) (by rw [zpow_neg, zpow_one]; norm_num) (by norm_num)
      (by norm_num)]

lemma decDiv_1000_1000 : decDiv (1000 : ℚ) 1000 = 1 := by
  unfold decDiv
  rw [show (1000 : ℚ) / 1000 = 1 by norm_num,
    roundDec_eq_of_eq 1 1 0 (by rw [zpow_zero_ten]; norm_num) (by norm_num) (by norm_num)]

lemma decMul_one_gi : decMul (1 : ℚ) 1073741824 = 1073741824 := by
  unfold decMul
  rw [show (1 : ℚ) * 1073741824 = 1073741824 by norm_num,
    roundDec_eq_of_eq 1073741824 1073741824 0 (by rw [zpow_zero_ten]; norm_num) (by norm_num)
      (by norm_num)]

lemma decMul_two_gi : decMul (2 : ℚ) 1073741824 = 2147483648 := by
  unfold decMul
  rw [show (2 : ℚ) * 1073741824 = 2147483648 by norm_num,
    roundDec_eq_of_eq 2147483648 2147483648 0 (by rw [zpow_zero_ten]; norm_num) (by norm_num)
      (by norm_num)]

lemma parse_cpu_500m : parse_cpu "500m" = some (1 / 2) := by
  have hs : stripWs ['5', '0', '0', 'm'] = ['5', '0', '0', 'm'] := by decide
  have hg : (['5', '0', '0', 'm'] : List Char).getLast? = some 'm' := by decide
  have hdl : (['5', '0', '0', 'm'] : List Char).dropLast = ['5', '0', '0'] := by decide
  have h : pyDecimalParse ['5', '0', '0'] = some (false, 500, 0, true, 0) := by decide
  simp +decide [parse_cpu, pyDecimal, hs, hg, hdl, h, decValue]
  norm_num [decDiv_500_1000]

lemma parse_cpu_1000m : parse_cpu "1000m" = some 1 := by
  have hs : stripWs ['1', '0', '0', '0', 'm'] = ['1', '0', '0', '0', 'm'] := by decide
  have hg : (['1', '0', '0', '0', 'm'] : List Char).getLast? = some 'm' := by decide
  have hdl : (['1', '0', '0', '0', 'm'] : List Char).dropLast = ['1', '0', '0', '0'] := by decide
  have h : pyDecimalParse ['1', '0', '0', '0'] = some (false, 1000, 0, true, 0) := by decide
  simp +decide [parse_cpu, pyDecimal, hs, hg, hdl, h, decValue]
  norm_num [decDiv_1000_1000]

lemma parse_memory_1Gi : parse_memory "1Gi" = 1073741824 := by
  have hms : memSuffix (stripWs ['1', 'G', 'i']) = some (1024 ^ 3, ['1']) := by decide
  have h : pyDecimalParse ['1'] = some (false, 1, 0, true, 0) := by decide
  simp +decide [parse_memory, pyDecimal, h, decValue, hms]
  norm_num [decMul_one_gi]

lemma parse_memory_2Gi : parse_memory "2Gi" = 2147483648 := by
  have hms : memSuffix (stripWs ['2', 'G', 'i']) = some (1024 ^ 3, ['2']) := by decide
  have h : pyDecimalParse ['2'] = some (false, 2, 0, true, 0) := by decide
  simp +decide [parse_memory, pyDecimal, h, decValue, hms]
  norm_num [decMul_two_gi]

/-- The §8 scenario input: one namespace with one running pod whose single
container requests `500m` CPU / `1Gi` memory against limits `1000m` / `2Gi`. -/
def scenarioTenant : TenantInput where
  name := "team-a"
  namespaces :=
    [{ name := "ns1"
       pods :=
        [{ phase := "Running"
           containers :=
            [some { requests := some { cpu := some "500m", memory := some "1Gi" }
                    limits := some { cpu := some "1000m", memory := some "2Gi" } }] }] }]

lemma gatherTotal_scenario :
    gatherTotal scenarioTenant =
      { cpu_req := 1 / 2, cpu_lim := 1, mem_req := 1073741824, mem_lim := 2147483648,
        pods := 1, pods_run := 1 } := by
  simp +decide [gatherTotal, scenarioTenant, get_namespace_usage, foldPods, addPod,
    foldContainers, addContainer, parse_cpu_500m, parse_cpu_1000m, parse_memory_1Gi,
    parse_memory_2Gi, addUsage, initUsage, decAdd_zero_half, decAdd_zero_one,
    decAdd_zero_gi1, decAdd_zero_gi2]
  norm_num [decAdd_zero_half]

lemma gather_scenario_pcts :
    (gather scenarioTenant).cpu_pct = 50 ∧ (gather scenarioTenant).mem_pct = 50 := by
  constructor <;>
    simp +decide [gather, gatherTotal_scenario, cpu_pct, mem_pct] <;> norm_num

/-! ### C2 — `parse_cpu` error behaviour -/

/-- **C2**: the claim says `parse_cpu` never raises and maps any unparsable
numeric body to zero.  The empty string, a missing suffix, and a well-formed
`m`-suffixed body indeed give values — but an `m`-suffixed *malformed* body
reaches the unguarded `Decimal` constructor, and the raised
`decimal.InvalidOperation` (modelled as `none`) escapes to the caller. -/
theorem parse_cpu_failure_observable :
    parse_cpu "abcm" = none
    ∧ parse_cpu "" = some 0
    ∧ parse_cpu "500m" = some (1 / 2)
    ∧ parse_cpu "2" = some 0
    ∧ parse_cpu "abc" = some 0 :=
  ⟨by decide, by decide, parse_cpu_500m, by decide, by decide⟩

/-! ### C5 — status thresholds -/

/-- **C5**: the status is `healthy` for score ≥ 90, `warning` for
70 ≤ score < 90, else `critical`; the stated boundary values land in the
stated buckets; and the cluster-wide status is the same bucketing applied to
the average tenant score. -/
theorem health_status_thresholds :
    (∀ s : ℚ,
      (90 ≤ s → health_status s = "healthy")
      ∧ (70 ≤ s → s < 90 → health_status s = "warning")
      ∧ (s < 70 → health_status s = "critical"))
    ∧ health_status 90 = "healthy"
    ∧ health_status (8999 / 100) = "warning"
    ∧ health_status 70 = "warning"
    ∧ health_status (6999 / 100) = "critical"
    ∧ (∀ ts : List TenantData,
        cluster_status ts = health_status (avg_health (ts.map (fun t => t.health_score)))) := by
  refine ⟨fun s => ⟨fun h => ?_, fun h1 h2 => ?_, fun h => ?_⟩, ?_, ?_, ?_, ?_, fun ts => rfl⟩
  · simp [health_status, h]
  · simp [health_status, not_le.mpr h2, h1]
  · have h90 : ¬ (90 : ℚ) ≤ s := not_le.mpr (h.trans_le (by norm_num))
    simp [health_status, h90, not_le.mpr h]
  · norm_num [health_status]
  · norm_num [health_status]
  · norm_num [health_status]
  · norm_num [health_status]

/-- Witness for `health_status_thresholds` at concrete scores. -/
theorem health_status_thresholds_witness :
    ((90 : ℚ) ≤ 95 ∧ health_status 95 = "healthy")
    ∧ ((70 : ℚ) ≤ 75 ∧ (75 : ℚ) < 90 ∧ health_status 75 = "warning")
    ∧ ((5 : ℚ) < 70 ∧ health_status 5 = "critical") :=
  ⟨⟨by norm_num, (health_status_thresholds.1 95).1 (by norm_num)⟩,
   ⟨by norm_num, by norm_num, (health_status_thresholds.1 75).2.1 (by norm_num) (by norm_num)⟩,
   ⟨by norm_num, (health_status_thresholds.1 5).2.2 (by norm_num)⟩⟩

/-! ### C6 — guarded percentage computation -/

/-- **C6**: `cpu_pct` is `cpu_req / cpu_lim * 100` when the limit is
positive and `0` when the limit is zero, and analogously for `mem_pct`; the
division is never reached with a zero divisor. -/
theorem pct_division_guarded :
    ∀ total : Usage,
      (0 < total.cpu_lim → cpu_pct total = total.cpu_req / total.cpu_lim * 100)
      ∧ (total.cpu_lim = 0 → cpu_pct total = 0)
      ∧ (0 < total.mem_lim → mem_pct total = total.mem_req / total.mem_lim * 100)
      ∧ (total.mem_lim = 0 → mem_pct total = 0) := by
  intro total
  refine ⟨fun h => ?_, fun h => ?_, fun h => ?_, fun h => ?_⟩ <;>
    simp [cpu_pct, mem_pct, h]

/-- Witness for `pct_division_guarded`: a tenant with `cpu_lim = 1` takes
the division branch, one with `mem_lim = 0` takes the guard branch. -/
theorem pct_division_guarded_witness :
    ((0 : ℚ) < 1 ∧ cpu_pct { cpu_req := 1 / 2, cpu_lim := 1 } = (1 / 2) / 1 * 100)
    ∧ (({ cpu_req := 1 / 2, cpu_lim := 1 } : Usage).mem_lim = 0
        ∧ mem_pct { cpu_req := 1 / 2, cpu_lim := 1 } = 0) :=
  ⟨⟨by norm_num, (pct_division_guarded { cpu_req := 1 / 2, cpu_lim := 1 }).1 (by norm_num)⟩,
   ⟨rfl, (pct_division_guarded { cpu_req := 1 / 2, cpu_lim := 1 }).2.2.2 rfl⟩⟩

/-! ### C4 — health-score formula -/

/-- **C4**: on every usage dictionary with non-negative quantities (the
invariant of `ResourceQuantity`), the guarded score computation of `gather`
equals the closed formula
`clamp (100 - min(cpuPct,100)·0.3 - min(memPct,100)·0.3 - (pending+failed)·10)`,
and the §8 scenario tenant gets `cpuPct = memPct = 50`, score `70`, status
`warning`. -/
theorem gather_health_score_formula :
    (∀ total : Usage, 0 ≤ total.cpu_req → 0 ≤ total.cpu_lim →
      0 ≤ total.mem_req → 0 ≤ total.mem_lim →
      health_score (cpu_pct total) (mem_pct total) total.pods_wait total.pods_fail
        = max 0 (min 100 (100 - min (cpu_pct total) 100 * (3 / 10)
            - min (mem_pct total) 100 * (3 / 10)
            - ((total.pods_wait : ℚ) + (total.pods_fail : ℚ)) * 10)))
    ∧ (gather scenarioTenant).cpu_pct = 50
    ∧ (gather scenarioTenant).mem_pct = 50
    ∧ (gather scenarioTenant).health_score = 70
    ∧ (gather scenarioTenant).health_status = "warning" := by
  refine ⟨fun total h1 h2 h3 h4 => ?_, gather_scenario_pcts.1, gather_scenario_pcts.2, ?_, ?_⟩
  · have hc : 0 ≤ cpu_pct total := by
      unfold cpu_pct; split_ifs with h
      · exact mul_nonneg (div_nonneg h1 h.le) (by norm_num)
      · exact le_refl 0
    have hm : 0 ≤ mem_pct total := by
      unfold mem_pct; split_ifs with h
      · exact mul_nonneg (div_nonneg h3 h.le) (by norm_num)
      · exact le_refl 0
    unfold health_score
    rcases hc.lt_or_eq with hcp | hcp
    · rcases hm.lt_or_eq with hmp | hmp
      · simp only [if_pos hcp, if_pos hmp]
      · rw [← hmp]; simp only [lt_irrefl, if_pos hcp, if_neg (lt_irrefl (0 : ℚ))]
        norm_num
    · rw [← hcp]; simp only [if_neg (lt_irrefl (0 : ℚ))]
      rcases hm.lt_or_eq with hmp | hmp
      · simp only [if_pos hmp]; norm_num
      · rw [← hmp]; simp only [if_neg (lt_irrefl (0 : ℚ))]; norm_num
  · simp only [gather, gatherTotal_scenario]
    norm_num [cpu_pct, mem_pct, health_score]
  · simp only [gather, gatherTotal_scenario]
    norm_num [cpu_pct, mem_pct, health_score, health_status]

/-- Witness for `gather_health_score_formula` at a concrete usage
dictionary. -/
theorem gather_health_score_formula_witness :
    (0 : ℚ) ≤ 1 / 2 ∧ (0 : ℚ) ≤ 1 ∧ (0 : ℚ) ≤ 0
    ∧ health_score (cpu_pct { cpu_req := 1 / 2, cpu_lim := 1 })
        (mem_pct { cpu_req := 1 / 2, cpu_lim := 1 }) 0 0
      = max 0 (min 100 (100 - min (cpu_pct { cpu_req := 1 / 2, cpu_lim := 1 }) 100 * (3 / 10)
          - min (mem_pct { cpu_req := 1 / 2, cpu_lim := 1 }) 100 * (3 / 10)
          - ((0 : ℚ) + (0 : ℚ)) * 10)) :=
  ⟨by norm_num, by norm_num, le_refl 0,
    gather_health_score_formula.1 { cpu_req := 1 / 2, cpu_lim := 1 }
      (by norm_num) (by norm_num) (le_refl 0) (le_refl 0)⟩

/-! ### C7 — accumulation order: counts independent, decimals not -/

lemma decDiv_1e31 :
    decDiv (10000000000000000000000000000000 : ℚ) 1000 = 10000000000000000000000000000 := by
  unfold decDiv
  rw [show (10000000000000000000000000000000 : ℚ) / 1000 = 10000000000000000000000000000 by
      norm_num,
    roundDec_eq_of_eq 10000000000000000000000000000 1 28 (by rw [ten_zpow_28]; norm_num)
      (by norm_num) (by norm_num)]

lemma decDiv_5000_1000 : decDiv (5000 : ℚ) 1000 = 5 := by
  unfold decDiv
  rw [show (5000 : ℚ) / 1000 = 5 by norm_num,
    roundDec_eq_of_eq 5 5 0 (by rw [zpow_zero_ten]; norm_num) (by norm_num) (by norm_num)]

lemma parse_cpu_1e31 : parse_cpu "1E+31m" = some ((10 : ℚ) ^ 28) := by
  have hs : stripWs "1E+31m".data = "1E+31m".data := by decide
  have hg : ("1E+31m".data).getLast? = some 'm' := by decide
  have hdl : ("1E+31m".data).dropLast = "1E+31".data := by decide
  have h : pyDecimalParse "1E+31".data = some (false, 1, 0, true, 31) := by decide
  simp +decide [parse_cpu, pyDecimal, hs, hg, hdl, h, decValue]
  norm_num [decDiv_1e31]

lemma parse_cpu_5000m : parse_cpu "5000m" = some 5 := by
  have hs : stripWs "5000m".data = "5000m".data := by decide
  have hg : ("5000m".data).getLast? = some 'm' := by decide
  have hdl : ("5000m".data).dropLast = "5000".data := by decide
  have h : pyDecimalParse "5000".data = some (false, 5000, 0, true, 0) := by decide
  simp +decide [parse_cpu, pyDecimal, hs, hg, hdl, h, decValue]
  norm_num [decDiv_5000_1000]

/-- A usage row requesting `10^28` cores — producible by `parse_cpu` from
the quantity string `"1E+31m"`. -/
def bigUsage : Usage := { cpu_req := (10 : ℚ) ^ 28 }

/-- A usage row requesting `5` cores — producible by `parse_cpu` from
`"5000m"`. -/
def fiveUsage : Usage := { cpu_req := 5 }

/-- Counterexample to **C7** as stated: `total[k] += u[k]` on the decimal
keys rounds at 28 significant digits, so folding the CPU requests
`10^28, 5, 5` gives `10^28` (each `+5` is a half-way case rounded to the
even coefficient) while folding `5, 5, 10^28` gives `10^28 + 10` — a
permutation of the same usage rows with different totals. -/
theorem accumulation_order_dependent_counterexample :
    parse_cpu "1E+31m" = some ((10 : ℚ) ^ 28)
    ∧ parse_cpu "5000m" = some 5
    ∧ [bigUsage, fiveUsage, fiveUsage].Perm [fiveUsage, fiveUsage, bigUsage]
    ∧ ¬ ([bigUsage, fiveUsage, fiveUsage].foldl addUsage initUsage
        = [fiveUsage, fiveUsage, bigUsage].foldl addUsage initUsage) := by
  refine ⟨parse_cpu_1e31, parse_cpu_5000m, ?_, ?_⟩
  · exact (List.Perm.swap fiveUsage bigUsage [fiveUsage]).trans
      (List.Perm.cons fiveUsage (List.Perm.swap fiveUsage bigUsage []))
  · intro hEq
    have h1 : ([bigUsage, fiveUsage, fiveUsage].foldl addUsage initUsage).cpu_req
        = (10 : ℚ) ^ 28 := by
      simp [addUsage, initUsage, bigUsage, fiveUsage, decAdd_zero_pow28, decAdd_pow28_five]
    have h2 : ([fiveUsage, fiveUsage, bigUsage].foldl addUsage initUsage).cpu_req
        = (10 : ℚ) ^ 28 + 10 := by
      simp [addUsage, initUsage, bigUsage, fiveUsage, decAdd_zero_five, decAdd_five_five,
        decAdd_ten_pow28]
    rw [hEq, h2] at h1
    norm_num at h1

lemma foldl_addUsage_counts (l : List Usage) :
    ∀ u0 : Usage,
      (l.foldl addUsage u0).pods = u0.pods + (l.map (fun v => v.pods)).sum
      ∧ (l.foldl addUsage u0).pods_run = u0.pods_run + (l.map (fun v => v.pods_run)).sum
      ∧ (l.foldl addUsage u0).pods_wait = u0.pods_wait + (l.map (fun v => v.pods_wait)).sum
      ∧ (l.foldl addUsage u0).pods_fail = u0.pods_fail + (l.map (fun v => v.pods_fail)).sum
      ∧ (l.foldl addUsage u0).svc = u0.svc + (l.map (fun v => v.svc)).sum
      ∧ (l.foldl addUsage u0).cm = u0.cm + (l.map (fun v => v.cm)).sum
      ∧ (l.foldl addUsage u0).secret = u0.secret + (l.map (fun v => v.secret)).sum := by
  induction l with
  | nil => intro u0; simp
  | cons a l ih =>
    intro u0
    have hi := ih (addUsage u0 a)
    simp only [List.foldl_cons, List.map_cons, List.sum_cons]
    refine ⟨hi.1.trans ?_, hi.2.1.trans ?_, hi.2.2.1.trans ?_, hi.2.2.2.1.trans ?_,
      hi.2.2.2.2.1.trans ?_, hi.2.2.2.2.2.1.trans ?_, hi.2.2.2.2.2.2.trans ?_⟩ <;>
      simp [addUsage] <;> omega

/-- **C7** (amended): the integer count keys (`pods` by phase and total,
`svc`, `cm`, `secret`) accumulate with exact integer addition and are
order-independent under every permutation; the decimal quantity keys round
at the context's 28 significant digits and need not be (see the
counterexample). -/
theorem accumulation_counts_order_independent :
    ∀ us₁ us₂ : List Usage, us₁.Perm us₂ →
      (us₁.foldl addUsage initUsage).pods = (us₂.foldl addUsage initUsage).pods
      ∧ (us₁.foldl addUsage initUsage).pods_run = (us₂.foldl addUsage initUsage).pods_run
      ∧ (us₁.foldl addUsage initUsage).pods_wait = (us₂.foldl addUsage initUsage).pods_wait
      ∧ (us₁.foldl addUsage initUsage).pods_fail = (us₂.foldl addUsage initUsage).pods_fail
      ∧ (us₁.foldl addUsage initUsage).svc = (us₂.foldl addUsage initUsage).svc
      ∧ (us₁.foldl addUsage initUsage).cm = (us₂.foldl addUsage initUsage).cm
      ∧ (us₁.foldl addUsage initUsage).secret = (us₂.foldl addUsage initUsage).secret := by
  intro us₁ us₂ p
  have h1 := foldl_addUsage_counts us₁ initUsage
  have h2 := foldl_addUsage_counts us₂ initUsage
  refine ⟨?_, ?_, ?_, ?_, ?_, ?_, ?_⟩
  · rw [h1.1, h2.1, (p.map (fun v => v.pods)).sum_eq]
  · rw [h1.2.1, h2.2.1, (p.map (fun v => v.pods_run)).sum_eq]
  · rw [h1.2.2.1, h2.2.2.1, (p.map (fun v => v.pods_wait)).sum_eq]
  · rw [h1.2.2.2.1, h2.2.2.2.1, (p.map (fun v => v.pods_fail)).sum_eq]
  · rw [h1.2.2.2.2.1, h2.2.2.2.2.1, (p.map (fun v => v.svc)).sum_eq]
  · rw [h1.2.2.2.2.2.1, h2.2.2.2.2.2.1, (p.map (fun v => v.cm)).sum_eq]
  · rw [h1.2.2.2.2.2.2, h2.2.2.2.2.2.2, (p.map (fun v => v.secret)).sum_eq]

/-- A pair of distinct usage dictionaries for the witness. -/
def usageA : Usage := { cpu_req := 1 / 2, pods := 1, pods_run := 1 }

/-- Second usage dictionary for the witness. -/
def usageB : Usage := { mem_req := 1024, pods := 2, pods_fail := 2, svc := 3 }

/-- Witness for `accumulation_counts_order_independent` on a concrete
two-element permutation. -/
theorem accumulation_counts_order_independent_witness :
    [usageA, usageB].Perm [usageB, usageA]
    ∧ ([usageA, usageB].foldl addUsage initUsage).pods
      = ([usageB, usageA].foldl addUsage initUsage).pods :=
  ⟨List.Perm.swap usageB usageA [],
   (accumulation_counts_order_independent [usageA, usageB] [usageB, usageA]
     (List.Perm.swap usageB usageA [])).1⟩

/-! ### C10 — `raw_milli` stores truncated whole cores -/

/-- **C10**: every `raw_milli` field of the derived record receives
`int(<cores value>)` — whole cores truncated toward zero, not milli-cores;
the §8 scenario tenant requests half a core (`500m`) and is persisted with
`raw_milli = 0`. -/
theorem raw_milli_is_truncated_cores :
    (∀ t : TenantData,
      (mkTenantInfo t).cpu_requested_raw_milli = intTrunc t.cpu_req
      ∧ (mkTenantInfo t).cpu_limit_raw_milli = intTrunc t.cpu_lim
      ∧ (mkTenantInfo t).cpu_usage_raw_milli = intTrunc t.cpu_req)
    ∧ (gather scenarioTenant).cpu_req = 1 / 2
    ∧ (mkTenantInfo (gather scenarioTenant)).cpu_requested_raw_milli = 0 := by
  refine ⟨fun t => ⟨rfl, rfl, rfl⟩, ?_, ?_⟩
  · simp only [gather, gatherTotal_scenario]
  · simp only [mkTenantInfo, gather, gatherTotal_scenario, intTrunc]
    rw [if_pos (by norm_num)]
    exact Int.floor_eq_zero_iff.mpr (by constructor <;> norm_num)

/-! ### C1 — pod-count identity -/

/-- The dictionary state after a `try` block: the accumulated value whether
the loop finished (`ok`) or was cut short by an exception (`error`). -/
def resultUsage : Except Usage Usage → Usage
  | Except.ok u => u
  | Except.error u => u

lemma addContainer_counts (u : Usage) (c : Option Resources) :
    (resultUsage (addContainer u c)).pods = u.pods
    ∧ (resultUsage (addContainer u c)).pods_run = u.pods_run
    ∧ (resultUsage (addContainer u c)).pods_wait = u.pods_wait
    ∧ (resultUsage (addContainer u c)).pods_fail = u.pods_fail := by
  cases c with
  | none => simp [addContainer, resultUsage]
  | some r =>
    simp only [addContainer]
    cases parse_cpu ((r.requests.getD {}).cpu.getD "0") with
    | none => simp [resultUsage]
    | some cr =>
      cases parse_cpu ((r.limits.getD {}).cpu.getD "0") with
      | none => simp [resultUsage]
      | some cl => simp [resultUsage]

lemma foldContainers_counts (cs : List (Option Resources)) :
    ∀ u : Usage,
      (resultUsage (foldContainers u cs)).pods = u.pods
      ∧ (resultUsage (foldContainers u cs)).pods_run = u.pods_run
      ∧ (resultUsage (foldContainers u cs)).pods_wait = u.pods_wait
      ∧ (resultUsage (foldContainers u cs)).pods_fail = u.pods_fail := by
  induction cs with
  | nil => intro u; simp [foldContainers, resultUsage]
  | cons c cs ih =>
    intro u
    have hac := addContainer_counts u c
    cases hca : addContainer u c with
    | ok u' =>
      rw [hca] at hac
      simp only [resultUsage] at hac
      simp only [foldContainers, hca]
      have hi := ih u'
      exact ⟨hi.1.trans hac.1, hi.2.1.trans hac.2.1, hi.2.2.1.trans hac.2.2.1,
        hi.2.2.2.trans hac.2.2.2⟩
    | error u' =>
      rw [hca] at hac
      simp only [resultUsage] at hac ⊢
      simp only [foldContainers, hca, resultUsage]
      exact hac

/-- The phase-classified state `addPod` builds before entering the container
loop. -/
def phaseStep (u : Usage) (p : Pod) : Usage :=
  let u1 : Usage :=
    if p.phase = "Running" then { u with pods_run := u.pods_run + 1 }
    else if p.phase = "Pending" then { u with pods_wait := u.pods_wait + 1 }
    else if p.phase = "Failed" then { u with pods_fail := u.pods_fail + 1 }
    else u
  { u1 with pods := u1.pods + 1 }

lemma addPod_eq_foldContainers (u : Usage) (p : Pod) :
    addPod u p = foldContainers (phaseStep u p) p.containers := rfl

lemma phaseStep_pods (u : Usage) (p : Pod) : (phaseStep u p).pods = u.pods + 1 := by
  unfold phaseStep
  by_cases hr : p.phase = "Running" <;> by_cases hp : p.phase = "Pending" <;>
    by_cases hf : p.phase = "Failed" <;> simp [hr, hp, hf]

lemma phaseStep_classified (u : Usage) (p : Pod) :
    (p.phase = "Running" ∨ p.phase = "Pending" ∨ p.phase = "Failed" →
      (phaseStep u p).pods_run + (phaseStep u p).pods_wait + (phaseStep u p).pods_fail
        = u.pods_run + u.pods_wait + u.pods_fail + 1)
    ∧ (phaseStep u p).pods_run + (phaseStep u p).pods_wait + (phaseStep u p).pods_fail
        ≤ u.pods_run + u.pods_wait + u.pods_fail + 1 := by
  unfold phaseStep
  by_cases hr : p.phase = "Running" <;> by_cases hp : p.phase = "Pending" <;>
    by_cases hf : p.phase = "Failed" <;> simp [hr, hp, hf] <;> omega

lemma foldPods_counts_le (ps : List Pod) :
    ∀ u : Usage,
      u.pods_run + u.pods_wait + u.pods_fail ≤ u.pods →
      (foldPods u ps).pods_run + (foldPods u ps).pods_wait + (foldPods u ps).pods_fail
        ≤ (foldPods u ps).pods := by
  induction ps with
  | nil => intro u h; simpa [foldPods] using h
  | cons p ps ih =>
    intro u h
    have hstep : (resultUsage (addPod u p)).pods_run + (resultUsage (addPod u p)).pods_wait
        + (resultUsage (addPod u p)).pods_fail ≤ (resultUsage (addPod u p)).pods := by
      rw [addPod_eq_foldContainers]
      have hc := foldContainers_counts p.containers (phaseStep u p)
      rw [hc.1, hc.2.1, hc.2.2.1, hc.2.2.2, phaseStep_pods]
      exact (phaseStep_classified u p).2.trans (by omega)
    cases hap : addPod u p with
    | ok u' =>
      rw [hap] at hstep
      simp only [resultUsage] at hstep
      simp only [foldPods, hap]
      exact ih u' hstep
    | error u' =>
      rw [hap] at hstep
      simp only [resultUsage] at hstep
      simp only [foldPods, hap]
      exact hstep

lemma foldPods_counts_eq (ps : List Pod) :
    ∀ u : Usage,
      (∀ p ∈ ps, p.phase = "Running" ∨ p.phase = "Pending" ∨ p.phase = "Failed") →
      u.pods = u.pods_run + u.pods_wait + u.pods_fail →
      (foldPods u ps).pods
        = (foldPods u ps).pods_run + (foldPods u ps).pods_wait + (foldPods u ps).pods_fail := by
  induction ps with
  | nil => intro u _ h; simpa [foldPods] using h
  | cons p ps ih =>
    intro u hall h
    have hstep : (resultUsage (addPod u p)).pods
        = (resultUsage (addPod u p)).pods_run + (resultUsage (addPod u p)).pods_wait
          + (resultUsage (addPod u p)).pods_fail := by
      rw [addPod_eq_foldContainers]
      have hc := foldContainers_counts p.containers (phaseStep u p)
      rw [hc.1, hc.2.1, hc.2.2.1, hc.2.2.2, phaseStep_pods,
        (phaseStep_classified u p).1 (hall p (List.mem_cons_self p ps))]
      omega
    cases hap : addPod u p with
    | ok u' =>
      rw [hap] at hstep
      simp only [resultUsage] at hstep
      simp only [foldPods, hap]
      exact ih u' (fun q hq => hall q (List.mem_cons_of_mem p hq)) hstep
    | error u' =>
      rw [hap] at hstep
      simp only [resultUsage] at hstep
      simp only [foldPods, hap]
      exact hstep

lemma get_namespace_usage_counts_le (ns : NsData) :
    (get_namespace_usage ns).pods_run + (get_namespace_usage ns).pods_wait
      + (get_namespace_usage ns).pods_fail ≤ (get_namespace_usage ns).pods := by
  simpa [get_namespace_usage] using foldPods_counts_le ns.pods initUsage (by simp [initUsage])

lemma get_namespace_usage_counts_eq (ns : NsData)
    (hall : ∀ p ∈ ns.pods, p.phase = "Running" ∨ p.phase = "Pending" ∨ p.phase = "Failed") :
    (get_namespace_usage ns).pods
      = (get_namespace_usage ns).pods_run + (get_namespace_usage ns).pods_wait
        + (get_namespace_usage ns).pods_fail := by
  simpa [get_namespace_usage] using foldPods_counts_eq ns.pods initUsage hall (by simp [initUsage])

lemma gather_foldl_counts_le (l : List NsData) :
    ∀ u0 : Usage,
      u0.pods_run + u0.pods_wait + u0.pods_fail ≤ u0.pods →
      (l.foldl (fun acc ns => addUsage acc (get_namespace_usage ns)) u0).pods_run
        + (l.foldl (fun acc ns => addUsage acc (get_namespace_usage ns)) u0).pods_wait
        + (l.foldl (fun acc ns => addUsage acc (get_namespace_usage ns)) u0).pods_fail
        ≤ (l.foldl (fun acc ns => addUsage acc (get_namespace_usage ns)) u0).pods := by
  induction l with
  | nil => intro u0 h; simpa using h
  | cons ns l ih =>
    intro u0 h
    simp only [List.foldl_cons]
    refine ih (addUsage u0 (get_namespace_usage ns)) ?_
    have hns := get_namespace_usage_counts_le ns
    simp only [addUsage]
    omega

lemma gather_foldl_counts_eq (l : List NsData) :
    ∀ u0 : Usage,
      (∀ ns ∈ l, ∀ p ∈ ns.pods,
        p.phase = "Running" ∨ p.phase = "Pending" ∨ p.phase = "Failed") →
      u0.pods = u0.pods_run + u0.pods_wait + u0.pods_fail →
      (l.foldl (fun acc ns => addUsage acc (get_namespace_usage ns)) u0).pods
        = (l.foldl (fun acc ns => addUsage acc (get_namespace_usage ns)) u0).pods_run
          + (l.foldl (fun acc ns => addUsage acc (get_namespace_usage ns)) u0).pods_wait
          + (l.foldl (fun acc ns => addUsage acc (get_namespace_usage ns)) u0).pods_fail := by
  induction l with
  | nil => intro u0 _ h; simpa using h
  | cons ns l ih =>
    intro u0 hall h
    simp only [List.foldl_cons]
    refine ih (addUsage u0 (get_namespace_usage ns))
      (fun ns' hns' => hall ns' (List.mem_cons_of_mem ns hns')) ?_
    have hns := get_namespace_usage_counts_eq ns (hall ns (List.mem_cons_self ns l))
    simp only [addUsage]
    omega

/-- **C1** (corrected form): a pod whose phase is outside
`{Running, Pending, Failed}` is counted in `pods` but in none of the three
phase buckets, so in general the bucket sum is only bounded by the total;
the claimed identity holds exactly when every pod's phase belongs to the
three classified phases — per contributing namespace and for the
tenant-level totals. -/
theorem pods_total_decomposition :
    (∀ ns : NsData,
      (get_namespace_usage ns).pods_run + (get_namespace_usage ns).pods_wait
        + (get_namespace_usage ns).pods_fail ≤ (get_namespace_usage ns).pods)
    ∧ (∀ ns : NsData,
        (∀ p ∈ ns.pods, p.phase = "Running" ∨ p.phase = "Pending" ∨ p.phase = "Failed") →
        (get_namespace_usage ns).pods
          = (get_namespace_usage ns).pods_run + (get_namespace_usage ns).pods_wait
            + (get_namespace_usage ns).pods_fail)
    ∧ (∀ t : TenantInput,
        (gatherTotal t).pods_run + (gatherTotal t).pods_wait + (gatherTotal t).pods_fail
          ≤ (gatherTotal t).pods)
    ∧ (∀ t : TenantInput,
        (∀ ns ∈ t.namespaces, ∀ p ∈ ns.pods,
          p.phase = "Running" ∨ p.phase = "Pending" ∨ p.phase = "Failed") →
        (gatherTotal t).pods
          = (gatherTotal t).pods_run + (gatherTotal t).pods_wait + (gatherTotal t).pods_fail) := by
  refine ⟨get_namespace_usage_counts_le, get_namespace_usage_counts_eq, fun t => ?_,
    fun t hall => ?_⟩
  · exact gather_foldl_counts_le t.namespaces initUsage (by simp [initUsage])
  · exact gather_foldl_counts_eq t.namespaces initUsage hall (by simp [initUsage])

/-- Witness for `pods_total_decomposition`: a namespace whose two pods are
`Running` and `Pending` satisfies the phase condition and the identity
`2 = 1 + 1 + 0`. -/
theorem pods_total_decomposition_witness :
    (∀ p ∈ ({ name := "ns1", pods := [{ phase := "Running" }, { phase := "Pending" }] }
        : NsData).pods,
      p.phase = "Running" ∨ p.phase = "Pending" ∨ p.phase = "Failed")
    ∧ (get_namespace_usage
        { name := "ns1", pods := [{ phase := "Running" }, { phase := "Pending" }] }).pods
      = (get_namespace_usage
          { name := "ns1", pods := [{ phase := "Running" }, { phase := "Pending" }] }).pods_run
        + (get_namespace_usage
            { name := "ns1", pods := [{ phase := "Running" }, { phase := "Pending" }] }).pods_wait
        + (get_namespace_usage
            { name := "ns1", pods := [{ phase := "Running" }, { phase := "Pending" }] }).pods_fail :=
  ⟨by decide, pods_total_decomposition.2.1
    { name := "ns1", pods := [{ phase := "Running" }, { phase := "Pending" }] } (by decide)⟩

/-- Counterexample to **C1** as stated: a namespace holding one `Succeeded`
pod has `pods = 1` but no pod in any of the three phase buckets. -/
theorem pods_invariant_counterexample :
    ¬ ((get_namespace_usage { name := "ns1", pods := [{ phase := "Succeeded" }] }).pods
      = (get_namespace_usage { name := "ns1", pods := [{ phase := "Succeeded" }] }).pods_run
        + (get_namespace_usage { name := "ns1", pods := [{ phase := "Succeeded" }] }).pods_wait
        + (get_namespace_usage { name := "ns1", pods := [{ phase := "Succeeded" }] }).pods_fail) := by
  decide

/-! ### C3 — decimal accumulation envelope and the float boundary -/

/-- **C3** (amended): a `total[k] += u[k]` accumulation step is exact
whenever the exact sum fits in the default context's 28 significant digits
(every value of the form `m * 10 ^ s` with `|m| < 10^28`); the sum
`10^28 + 5` does not fit and the context rounds it away — so the decimal
arithmetic is exact only within this envelope, and the `float(...)`
conversions at the end of `gather` further break exactness before the
cluster rollup (see the counterexample). -/
theorem decimal_accumulation_envelope :
    (∀ (a b : ℚ) (m s : ℤ), a + b = (m : ℚ) * (10 : ℚ) ^ s → m.natAbs < 10 ^ 28 →
      decAdd a b = a + b)
    ∧ decAdd ((10 : ℚ) ^ 28) 5 = (10 : ℚ) ^ 28
    ∧ (10 : ℚ) ^ 28 + 5 ≠ (10 : ℚ) ^ 28 :=
  ⟨fun a b m s h hm => decAdd_fits a b m s h hm, decAdd_pow28_five, by norm_num⟩

/-- Witness for `decimal_accumulation_envelope` at the scenario's first
accumulation step `0 + 0.5`. -/
theorem decimal_accumulation_envelope_witness :
    ((0 : ℚ) + 1 / 2 = ((5 : ℤ) : ℚ) * (10 : ℚ) ^ (-1 : ℤ) ∧ (5 : ℤ).natAbs < 10 ^ 28)
    ∧ decAdd 0 (1 / 2) = 0 + 1 / 2 :=
  ⟨⟨by rw [zpow_neg, zpow_one]; norm_num, by norm_num⟩,
   decimal_accumulation_envelope.1 0 (1 / 2) 5 (-1)
     (by rw [zpow_neg, zpow_one]; norm_num) (by norm_num)⟩

lemma parse_memory_0 : parse_memory "0" = 0 := by
  have h : memSuffix (stripWs ['0']) = none := by decide
  simp [parse_memory, h]

/-- A tenant whose single container requests `9007199254740993000m`
(`2^53 + 1` cores): the exact accumulated total is representable as a
decimal but not as a binary64 float. -/
def bigCpuTenant : TenantInput where
  name := "t1"
  namespaces :=
    [{ name := "ns1"
       pods :=
        [{ phase := "Running"
           containers := [some { requests := some { cpu := some "9007199254740993000m" } }] }] }]

lemma decDiv_big : decDiv (9007199254740993000 : ℚ) 1000 = 2 ^ 53 + 1 := by
  unfold decDiv
  rw [show (9007199254740993000 : ℚ) / 1000 = 2 ^ 53 + 1 by norm_num,
    roundDec_eq_of_eq (2 ^ 53 + 1) 9007199254740993 0 (by rw [zpow_zero_ten]; norm_num)
      (by norm_num) (by norm_num)]

lemma parse_cpu_big : parse_cpu "9007199254740993000m" = some (2 ^ 53 + 1) := by
  have hs : stripWs "9007199254740993000m".data = "9007199254740993000m".data := by decide
  have hg : ("9007199254740993000m".data).getLast? = some 'm' := by decide
  have hdl : ("9007199254740993000m".data).dropLast = "9007199254740993000".data := by decide
  have h : pyDecimalParse "9007199254740993000".data =
      some (false, 9007199254740993000, 0, true, 0) := by decide
  simp +decide [parse_cpu, pyDecimal, hs, hg, hdl, h, decValue]
  norm_num [decDiv_big]

lemma parse_cpu_0 : parse_cpu "0" = some 0 := by decide

lemma gatherTotal_bigCpuTenant : (gatherTotal bigCpuTenant).cpu_req = 2 ^ 53 + 1 := by
  simp +decide [gatherTotal, bigCpuTenant, get_namespace_usage, foldPods, addPod,
    foldContainers, addContainer, parse_cpu_big, parse_cpu_0, parse_memory_0, addUsage,
    initUsage, decAdd_zero_big53, decAdd_zero_zero]

/-- Counterexample to **C3** as stated: the exact decimal CPU total
`2^53 + 1` of `bigCpuTenant` is not representable as a binary64 float, so
the `float(total['cpu_req'])` conversion performed by `gather` (source line
274) — upstream of the cluster-wide rollup summation in `update_metrics` —
cannot return the exact value: binary floating point enters before the
render boundary and the arithmetic after it is not exact. -/
theorem float_before_rollup_counterexample :
    (gatherTotal bigCpuTenant).cpu_req = 2 ^ 53 + 1
    ∧ ¬ binary64Representable ((gatherTotal bigCpuTenant).cpu_req) := by
  refine ⟨gatherTotal_bigCpuTenant, ?_⟩
  rw [gatherTotal_bigCpuTenant]
  rintro ⟨m, e, hm, he⟩
  have hval : ((2 : ℚ) ^ 53 + 1) = (9007199254740993 : ℚ) := by norm_num
  rw [hval] at he
  cases e with
  | ofNat k =>
    have hZ : (9007199254740993 : ℤ) = m * 2 ^ k := by
      have h9 : (9007199254740993 : ℚ) = ((m * 2 ^ k : ℤ) : ℚ) := by
        rw [he, Int.ofNat_eq_natCast, zpow_natCast]; push_cast; ring
      exact_mod_cast h9
    rcases Nat.eq_zero_or_pos k with hk | hk
    · subst hk
      simp only [pow_zero, mul_one] at hZ
      rw [← hZ] at hm
      norm_num at hm
    · have hdvd : (2 : ℤ) ∣ 9007199254740993 := by
        rw [hZ]
        exact Dvd.dvd.mul_left (dvd_pow_self 2 hk.ne') m
      norm_num at hdvd
  | negSucc k =>
    have hq : (m : ℚ) = 9007199254740993 * 2 ^ (k + 1) := by
      rw [zpow_negSucc] at he
      field_simp at he
      linarith [he]
    have hZ : m = 9007199254740993 * 2 ^ (k + 1) := by exact_mod_cast hq
    have habs : m.natAbs = 9007199254740993 * 2 ^ (k + 1) := by
      rw [hZ]
      rw [Int.natAbs_mul, Int.natAbs_pow]
      rfl
    rw [habs] at hm
    have h2 : 2 ≤ 2 ^ (k + 1) := by
      calc (2 : ℕ) = 2 ^ 1 := (pow_one 2).symm
      _ ≤ 2 ^ (k + 1) := Nat.pow_le_pow_right (by norm_num) (by omega)
    have : 2 ^ 53 < 9007199254740993 * 2 ^ (k + 1) := by
      calc (2 ^ 53 : ℕ) < 9007199254740993 * 2 := by norm_num
      _ ≤ 9007199254740993 * 2 ^ (k + 1) := Nat.mul_le_mul_left _ h2
    omega

/-! ### C8 — idempotent reconciliation -/

lemma sync_lookup (ts : List TenantData) :
    ∀ (s : Store) (n : String),
      sync_tenant_infos ts s n
        = match ts.reverse.find? (fun t => t.name ++ "-info" == n) with
          | some t => some (mkTenantInfo t)
          | none => s n := by
  induction ts with
  | nil => intro s n; rfl
  | cons t ts ih =>
    intro s n
    show sync_tenant_infos ts (upsert s (t.name ++ "-info") (mkTenantInfo t)) n = _
    rw [ih, List.reverse_cons, List.find?_append]
    cases h : ts.reverse.find? (fun x => x.name ++ "-info" == n) with
    | some x => simp [h, Option.or]
    | none =>
      simp only [h, Option.none_or]
      by_cases he : t.name ++ "-info" = n
      · simp [List.find?, he, upsert]
      · have hb : (t.name ++ "-info" == n) = false := beq_eq_false_iff_ne.mpr he
        have hn : ¬ n = t.name ++ "-info" := fun hc => he hc.symm
        simp [List.find?, hb, upsert, hn]

lemma sync_absorb (ts : List TenantData) (s : Store) :
    sync_tenant_infos ts (sync_tenant_infos ts s) = sync_tenant_infos ts s := by
  funext n
  rw [sync_lookup ts (sync_tenant_infos ts s) n, sync_lookup ts s n]
  cases h : ts.reverse.find? (fun t => t.name ++ "-info" == n) with
  | some t => simp only [h]
  | none => simp only [h]

lemma sync_mem (ts : List TenantData) :
    (ts.map (fun t => t.name ++ "-info")).Nodup →
    ∀ t ∈ ts, ∀ s : Store,
      sync_tenant_infos ts s (t.name ++ "-info") = some (mkTenantInfo t) := by
  induction ts with
  | nil => intro _ t ht; simp at ht
  | cons hd ts ih =>
    intro hnd t ht s
    rcases List.mem_cons.mp ht with rfl | hmem
    · show sync_tenant_infos ts (upsert s (t.name ++ "-info") (mkTenantInfo t))
        (t.name ++ "-info") = _
      rw [sync_lookup]
      have hnone : ts.reverse.find? (fun x => x.name ++ "-info" == t.name ++ "-info") = none := by
        rw [List.find?_eq_none]
        intro x hx
        have hxts : x ∈ ts := List.mem_reverse.mp hx
        have hkey : x.name ++ "-info" ≠ t.name ++ "-info" := by
          intro hcontr
          apply (List.nodup_cons.mp hnd).1
          have hx2 : (fun t : TenantData => t.name ++ "-info") x
              ∈ List.map (fun t : TenantData => t.name ++ "-info") ts :=
            List.mem_map_of_mem _ hxts
          simpa [hcontr] using hx2
        simpa using hkey
      rw [hnone]
      simp [upsert]
    · show sync_tenant_infos ts (upsert s (hd.name ++ "-info") (mkTenantInfo hd))
        (t.name ++ "-info") = _
      exact ih (List.nodup_cons.mp hnd).2 t hmem _

/-- **C8**: reconciling the same tenant data twice leaves the derived-record
store in an identical final state, and — when the derived record names are
distinct — each tenant ends up with exactly its record under
`<tenant>-info`, identical after the first and the second run. -/
theorem sync_tenant_infos_idempotent :
    (∀ (ts : List TenantData) (s : Store),
      sync_tenant_infos ts (sync_tenant_infos ts s) = sync_tenant_infos ts s)
    ∧ (∀ (ts : List TenantData) (s : Store) (t : TenantData),
        (ts.map (fun t => t.name ++ "-info")).Nodup → t ∈ ts →
        sync_tenant_infos ts s (t.name ++ "-info") = some (mkTenantInfo t)
        ∧ sync_tenant_infos ts (sync_tenant_infos ts s) (t.name ++ "-info")
          = some (mkTenantInfo t)) := by
  refine ⟨sync_absorb, fun ts s t hnd ht => ⟨sync_mem ts hnd t ht s, ?_⟩⟩
  rw [sync_absorb]
  exact sync_mem ts hnd t ht s

/-- Witness for `sync_tenant_infos_idempotent` on a singleton snapshot over
the empty store. -/
theorem sync_tenant_infos_idempotent_witness :
    ([gather scenarioTenant].map (fun t => t.name ++ "-info")).Nodup
    ∧ gather scenarioTenant ∈ [gather scenarioTenant]
    ∧ sync_tenant_infos [gather scenarioTenant] (fun _ => none)
        ((gather scenarioTenant).name ++ "-info")
      = some (mkTenantInfo (gather scenarioTenant)) :=
  ⟨List.nodup_singleton _, List.mem_singleton_self _,
   (sync_tenant_infos_idempotent.2 [gather scenarioTenant] (fun _ => none)
     (gather scenarioTenant) (List.nodup_singleton _) (List.mem_singleton_self _)).1⟩

/-! ### C9 — deterministic rendering, sorted and sanitized labels -/

instance : IsTrans (String × String) pairLe :=
  ⟨fun a b c hab hbc => by
    rcases hab with h1 | ⟨h1, h2⟩ <;> rcases hbc with h3 | ⟨h3, h4⟩
    · exact Or.inl (h1.trans h3)
    · exact Or.inl (h3 ▸ h1)
    · exact Or.inl (h1 ▸ h3)
    · exact Or.inr ⟨h1.trans h3, h2.trans h4⟩⟩

instance : IsTotal (String × String) pairLe :=
  ⟨fun a b => by
    rcases lt_trichotomy a.1 b.1 with h | h | h
    · exact Or.inl (Or.inl h)
    · rcases le_total a.2 b.2 with h2 | h2
      · exact Or.inl (Or.inr ⟨h, h2⟩)
      · exact Or.inr (Or.inr ⟨h.symm, h2⟩)
    · exact Or.inr (Or.inl h)⟩

lemma sanitizeLabel_data (s : String) :
    (sanitizeLabel s).data = s.data.map (fun c => if c = '.' ∨ c = '-' then '_' else c) := rfl

/-- **C9**: rendering a fixed gauge table twice yields identical text; the
label list attached to each gauge key is sorted — in particular its key
sequence is weakly increasing — and every sanitized label value is free of
`.` and `-`. -/
theorem render_deterministic_sorted_sanitized :
    (∀ g : Gauges, generate g = generate g)
    ∧ (∀ d : List (String × String), List.Sorted pairLe (labelsOf d))
    ∧ (∀ d : List (String × String),
        List.Sorted (fun a b : String => a ≤ b) ((labelsOf d).map Prod.fst))
    ∧ (∀ d : List (String × String), ∀ p ∈ labelsOf d,
        '.' ∉ p.2.data ∧ '-' ∉ p.2.data) := by
  refine ⟨fun g => rfl, fun d => List.sorted_insertionSort pairLe _, fun d => ?_, fun d p hp => ?_⟩
  · have hs := List.sorted_insertionSort pairLe (d.map (fun kv => (kv.1, sanitizeLabel kv.2)))
    exact List.Pairwise.map Prod.fst
      (fun a b h => by rcases h with h | ⟨h, _⟩; exacts [le_of_lt h, le_of_eq h]) hs
  · have hperm := List.perm_insertionSort pairLe (d.map (fun kv => (kv.1, sanitizeLabel kv.2)))
    have hp' : p ∈ d.map (fun kv => (kv.1, sanitizeLabel kv.2)) := hperm.mem_iff.mp hp
    obtain ⟨kv, hkv, rfl⟩ := List.mem_map.mp hp'
    constructor <;>
    · intro hcontr
      rw [sanitizeLabel_data] at hcontr
      obtain ⟨c, hc, hceq⟩ := List.mem_map.mp hcontr
      by_cases hcd : c = '.' ∨ c = '-'
      · rw [if_pos hcd] at hceq; exact absurd hceq (by decide)
      · rw [if_neg hcd] at hceq
        exact hcd (by rw [hceq]; simp)

/-- Witness for `render_deterministic_sorted_sanitized` on a concrete label
dictionary containing both a `.` and a `-`. -/
theorem render_deterministic_sorted_sanitized_witness :
    ("tenant", sanitizeLabel "team.a-b") ∈ labelsOf [("tenant", "team.a-b")]
    ∧ '.' ∉ ("tenant", sanitizeLabel "team.a-b").2.data
    ∧ '-' ∉ ("tenant", sanitizeLabel "team.a-b").2.data :=
  ⟨List.mem_singleton_self _,
   (render_deterministic_sorted_sanitized.2.2.2 [("tenant", "team.a-b")]
     ("tenant", sanitizeLabel "team.a-b") (List.mem_singleton_self _)).1,
   (render_deterministic_sorted_sanitized.2.2.2 [("tenant", "team.a-b")]
     ("tenant", sanitizeLabel "team.a-b") (List.mem_singleton_self _)).2⟩

end TenantObserver
